import Mathlib

/-!
Verification of the repository layer of the Task Manager (run.py).

Shallow embedding conventions:
- Python strings are Lean `String` values; sheet rows are `List String`.
- Stateful methods of `TaskManager` become pure functions taking the cached
  tables and returning the new cached tables together with an outcome value.
- Remote sheet interactions (fetches, cell writes) are represented by explicit
  outcome parameters: the function receives what the remote call would return.
- A Python exception that the surrounding code does not catch is modelled as
  `Option.none` (the operation aborts; the process would crash).

The file is organized as definitions first, then theorems.
-/

namespace TaskMan

/-! ## Python string and integer primitives -/

/-- One decimal digit character, used by the model of Python `str(int)`. -/
def digitChar (n : Nat) : Char :=
  if n = 0 then '0' else if n = 1 then '1' else if n = 2 then '2'
  else if n = 3 then '3' else if n = 4 then '4' else if n = 5 then '5'
  else if n = 6 then '6' else if n = 7 then '7' else if n = 8 then '8' else '9'

/-- Numeric value of a digit character, used by the model of Python `int(str)`. -/
def digitVal (c : Char) : Nat := c.toNat - 48

/-- Model of Python `str.isdigit()`: non-empty and every character a digit. -/
def pyIsDigit (s : String) : Bool :=
  !s.toList.isEmpty && s.toList.all Char.isDigit

/-- Decimal value of a list of digit characters. -/
def charsVal (l : List Char) : Nat := l.foldl (fun a c => a * 10 + digitVal c) 0

/-- Model of Python `int(s)` on an all-digit string. -/
def pyInt (s : String) : Nat := charsVal s.toList

/-- Fuel-driven decimal digit expansion (fuel `n + 1` always suffices for `n`). -/
def natDigitsAux : Nat → Nat → List Char
  | 0, _ => []
  | fuel + 1, n =>
    if n < 10 then [digitChar n]
    else natDigitsAux fuel (n / 10) ++ [digitChar (n % 10)]

/-- Model of Python `str(n)` for a natural number `n`. -/
def natRepr (n : Nat) : String := String.mk (natDigitsAux (n + 1) n)

/-! ## Task record model (class Task, run.py lines 100-140) -/

/-- A resolved reference, the dict `{"id": ..., "name": ...}` built by
`load_tasks` and `add_task` for the category and project fields. -/
structure TaskRef where
  id : String
  name : String
deriving DecidableEq

/-- The Task record. `Task.__init__` takes `task_id, name, deadline, priority,
status, notes, category, project, create_date` and unconditionally initializes
`complete_date` to `None`; `category`, `project` and `create_date` default to
`None`. -/
structure Task where
  task_id : String
  name : String
  deadline : String
  priority : String
  status : String
  notes : String
  category : Option TaskRef
  project : Option TaskRef
  complete_date : Option String
  create_date : Option String
deriving DecidableEq

/-- Model of `Task.mark_as_completed` (run.py lines 126-129): sets the status
to Completed and the completion date to the current date. -/
def Task.mark_as_completed (t : Task) (today : String) : Task :=
  { t with status := "Completed", complete_date := some today }

/-! ## generate_unique_task_id (run.py lines 353-361) -/

/-- Model of `TaskManager.generate_unique_task_id`: collect `int(task.task_id)`
over the tasks whose id is all digits, take `max(existing_ids, default=0) + 1`,
return it as a string. -/
def generate_unique_task_id (tasks : List Task) : String :=
  let existing_ids := (tasks.filter fun t => pyIsDigit t.task_id).map fun t => pyInt t.task_id
  natRepr (existing_ids.foldr max 0 + 1)

/-! ## retry_with_backoff (run.py lines 64-98) -/

/-- Outcome of one invocation of the wrapped remote call: a returned value or
an APIError carrying its message string. -/
inductive CallOutcome (α : Type) where
  | ok (v : α)
  | apiError (msg : String)
deriving DecidableEq

/-- Character-list scan behind `contains429`. -/
def has429 : List Char → Bool
  | [] => false
  | '4' :: '2' :: '9' :: _ => true
  | _ :: cs => has429 cs

/-- Model of the Python membership test `"429" in str(e)` (run.py line 90). -/
def contains429 (s : String) : Bool := has429 s.toList

/-- Result of `retry_with_backoff`: the value, a re-raised non-transient
APIError, or the custom `RetryLimitExceededError` (run.py lines 65-69). -/
inductive RetryResult (α : Type) where
  | ok (v : α)
  | apiError (msg : String)
  | retryLimitExceeded (msg : String)
deriving DecidableEq

/-- Observable trace of one `retry_with_backoff` run: its result, how many
times `func` was invoked, and the list of `time.sleep` durations in order. -/
structure RetryTrace (α : Type) where
  result : RetryResult α
  calls : Nat
  sleeps : List Nat
deriving DecidableEq

/-- The `for attempt in range(retries)` loop of `retry_with_backoff`:
`attempt` is the current loop index and the fuel counts the remaining loop
iterations. `f k` is the outcome of the k-th invocation of `func`. On a 429
APIError the loop sleeps `delay * (2 ** attempt)` seconds and retries; any
other APIError is re-raised; exhausting the loop raises
`RetryLimitExceededError`. -/
def retryAux {α : Type} (f : Nat → CallOutcome α) (delay : Nat) :
    Nat → Nat → RetryTrace α
  | _, 0 =>
    { result := .retryLimitExceeded "Exceeded maximum retries for function",
      calls := 0, sleeps := [] }
  | attempt, fuel + 1 =>
    match f attempt with
    | .ok v => { result := .ok v, calls := 1, sleeps := [] }
    | .apiError msg =>
      if contains429 msg then
        let rest := retryAux f delay (attempt + 1) fuel
        { result := rest.result, calls := rest.calls + 1,
          sleeps := delay * 2 ^ attempt :: rest.sleeps }
      else
        { result := .apiError msg, calls := 1, sleeps := [] }

/-- Model of `retry_with_backoff(func, *args, retries, delay)`; the source
defaults are `retries=5`, `delay=1`. -/
def retry_with_backoff {α : Type} (f : Nat → CallOutcome α) (retries delay : Nat) :
    RetryTrace α :=
  retryAux f delay 0 retries

/-! ## Cached tables, dicts and name resolution (run.py lines 303-351) -/

/-- Building `{row[0]: row[1] for row in rows}`: IndexError (`none`) when a
row has fewer than two cells; later rows override earlier bindings. -/
def buildDict : List (List String) → Option (List (String × String))
  | [] => some []
  | r :: rs =>
    match r.get? 0, r.get? 1 with
    | some k, some v => (buildDict rs).map fun d => (k, v) :: d
    | _, _ => none

/-- Model of `dict.get(k, default)` for a dict built by `buildDict`: the last
binding of a key wins, as in a Python dict comprehension. -/
def dictGet (d : List (String × String)) (k dflt : String) : String :=
  match d.reverse.find? fun p => p.1 == k with
  | some p => p.2
  | none => dflt

/-- Model of `TaskManager.get_project_name` (run.py lines 303-312): look the
project id up in the cached project table, default display name "none". -/
def get_project_name (cached_projects : List (List String)) (project_id : String) :
    Option String :=
  (buildDict cached_projects.tail).map fun d => dictGet d project_id "none"

/-- Model of `TaskManager.get_category_name` (run.py lines 314-323): look the
category id up in the cached category table, default "Unknown Category". -/
def get_category_name (cached_categories : List (List String)) (category_id : String) :
    Option String :=
  (buildDict cached_categories.tail).map fun d => dictGet d category_id "Unknown Category"

/-- Materialization of one cached task row into a `Task`, as in the loop body
of `load_tasks` (run.py lines 337-349): the row is read at the fixed positions
id=0, name=1, deadline=3, priority=6, status=5, notes=9, category=7,
project=8, and the Task constructor leaves `complete_date` and `create_date`
as `None`. -/
def taskFromRow (cdict pdict : List (String × String)) (row : List String) :
    Option Task :=
  match row.get? 0, row.get? 1, row.get? 3, row.get? 6, row.get? 5, row.get? 9,
      row.get? 7, row.get? 8 with
  | some tid, some nm, some dl, some pr, some st, some nt, some cid, some pid =>
    some { task_id := tid, name := nm, deadline := dl, priority := pr, status := st,
           notes := nt,
           category := some ⟨cid, dictGet cdict cid "Unknown Category"⟩,
           project := some ⟨pid, dictGet pdict pid "none"⟩,
           complete_date := none, create_date := none }
  | _, _, _, _, _, _, _, _ => none

/-- The materialization loop of `load_tasks` over the cached task rows. -/
def tasksFromRows (cdict pdict : List (String × String)) :
    List (List String) → Option (List Task)
  | [] => some []
  | r :: rs =>
    match taskFromRow cdict pdict r, tasksFromRows cdict pdict rs with
    | some t, some ts => some (t :: ts)
    | _, _ => none

/-- Model of `TaskManager.load_tasks` (run.py lines 325-351): skip the header
row of each cached table, build the project and category dicts, materialize
every task row. -/
def load_tasks (cached_tasks cached_projects cached_categories : List (List String)) :
    Option (List Task) :=
  match buildDict cached_projects.tail, buildDict cached_categories.tail with
  | some pdict, some cdict => tasksFromRows cdict pdict cached_tasks.tail
  | _, _ => none

/-! ## Validators (run.py lines 188-301) -/

/-- Model of `TaskManager.validate_task_name` (run.py lines 190-199):
`if not name or len(name) > 50`. -/
def validate_task_name (name : String) : Option String :=
  if name.toList.isEmpty || decide (50 < name.toList.length) then
    some "Task name must be non-empty and 50 characters or less."
  else none

/-- A Python `datetime` value, to second precision. -/
structure PyDateTime where
  year : Nat
  month : Nat
  day : Nat
  hour : Nat
  minute : Nat
  second : Nat
deriving DecidableEq

/-- Calendar-date component, encoded so that valid dates compare in the
lexicographic year-month-day order. -/
def dateKey (d : PyDateTime) : Nat := (d.year * 100 + d.month) * 100 + d.day

/-- Time-of-day component, encoded monotonically; always below 1000000 for a
valid time. -/
def timeKey (d : PyDateTime) : Nat := (d.hour * 100 + d.minute) * 100 + d.second

/-- Full instant key: Python `datetime` comparison on valid instants is the
numeric order of this key. -/
def dtKey (d : PyDateTime) : Nat := dateKey d * 1000000 + timeKey d

def isLeapYear (y : Nat) : Bool := (y % 4 == 0 && y % 100 != 0) || y % 400 == 0

def daysInMonth (y m : Nat) : Nat :=
  if m == 2 then (if isLeapYear y then 29 else 28)
  else if m == 4 || m == 6 || m == 9 || m == 11 then 30
  else 31

/-- Split a character list at every dash character. -/
def splitDash : List Char → List (List Char)
  | [] => [[]]
  | c :: cs =>
    if c = '-' then [] :: splitDash cs
    else
      match splitDash cs with
      | [] => [[c]]
      | g :: gs => (c :: g) :: gs

/-- Model of `datetime.strptime(s, "%Y-%m-%d")`: a four-digit year of at least
1, a one- or two-digit month in 1..12, a one- or two-digit day valid for that
month and year; any other shape raises ValueError (`none`). The parsed
datetime sits at midnight of the parsed calendar date. -/
def parseYmd (s : String) : Option (Nat × Nat × Nat) :=
  match splitDash s.toList with
  | [ys, ms, ds] =>
    if ys.length = 4 ∧ ys.all Char.isDigit
        ∧ (ms.length = 1 ∨ ms.length = 2) ∧ ms.all Char.isDigit
        ∧ (ds.length = 1 ∨ ds.length = 2) ∧ ds.all Char.isDigit then
      let y := charsVal ys
      let m := charsVal ms
      let d := charsVal ds
      if 1 ≤ y ∧ 1 ≤ m ∧ m ≤ 12 ∧ 1 ≤ d ∧ d ≤ daysInMonth y m then
        some (y, m, d)
      else none
    else none
  | _ => none

/-- Model of `TaskManager.validate_deadline` (run.py lines 201-215) at the
validation instant `now` (the value of `datetime.now()`): parse the string
with `strptime "%Y-%m-%d"`, and report the in-the-past error when the parsed
midnight instant is strictly before `now`. -/
def validate_deadline (now : PyDateTime) (deadline : String) : Option String :=
  match parseYmd deadline with
  | none => some "Invalid deadline format. Please use YYYY-MM-DD."
  | some (y, m, d) =>
    if dtKey ⟨y, m, d, 0, 0, 0⟩ < dtKey now then some "Deadline cannot be in the past."
    else none

/-- Model of `TaskManager.validate_priority` (run.py lines 217-228). -/
def validate_priority (priority : String) : Option String :=
  if priority = "High" ∨ priority = "Medium" ∨ priority = "Low" then none
  else some "Invalid priority. Please choose from High, Medium, or Low."

/-- First column of the data rows of a fetched table:
`[row[0] for row in fetched]`; IndexError on an empty row is `none`. -/
def headColumn : List (List String) → Option (List String)
  | [] => some []
  | r :: rs =>
    match r.get? 0 with
    | some x => (headColumn rs).map fun l => x :: l
    | none => none

/-- Model of `TaskManager.validate_category_id` (run.py lines 230-242); the
argument `fetched` is the table returned by the (assumed successful)
`retry_with_backoff(self.categories_sheet.get_all_values)` call. -/
def validate_category_id (fetched : List (List String)) (category_id : String) :
    Option (Option String) :=
  (headColumn fetched.tail).map fun ids =>
    if category_id ∈ ids then none
    else some "Invalid category ID. Please choose from the available categories."

/-- Model of `TaskManager.validate_project_id` (run.py lines 244-301) as it is
called from `update_task`, with only the project id argument: both id columns
are fetched, the project id is checked against the project ids, and the
optional name, deadline, priority and category checks are skipped because
those arguments are None. -/
def validate_project_id (fetchedProjects fetchedCategories : List (List String))
    (project_id : String) : Option (Option String) :=
  match headColumn fetchedProjects.tail, headColumn fetchedCategories.tail with
  | some pids, some _ =>
    some (if project_id ∈ pids then none
          else some "Invalid project ID. Please choose from the available projects.")
  | _, _ => none

/-! ## add_task (run.py lines 363-429) -/

/-- Model of `TaskManager.add_task`: default the create date to today, resolve
display names from the cached reference tables, generate the id, append the
Task in memory, and append the ten-cell row
(id, name, create_date, deadline, "", "Pending", priority, category, project,
notes) to the remote task table. The result is the new in-memory task list and
the appended row. -/
def add_task (tasks : List Task)
    (cached_projects cached_categories : List (List String))
    (name deadline priority category_id project_id notes : String)
    (create_date : Option String) (today : String) :
    Option (List Task × List String) :=
  let cd := create_date.getD today
  match get_category_name cached_categories category_id,
        get_project_name cached_projects project_id with
  | some category_name, some project_name =>
    let new_task_id := generate_unique_task_id tasks
    let new_task : Task :=
      { task_id := new_task_id, name := name, deadline := deadline, priority := priority,
        status := "Pending", notes := notes,
        category := some ⟨category_id, category_name⟩,
        project := some ⟨project_id, project_name⟩,
        complete_date := none, create_date := some cd }
    some (tasks ++ [new_task],
      [new_task_id, name, cd, deadline, "", "Pending", priority, category_id, project_id, notes])
  | _, _ => none

/-! ## load_and_cache_data (run.py lines 162-186) -/

/-- Model of `TaskManager.load_and_cache_data`. The arguments `ft fp fc` are
the results of the three `retry_with_backoff(...get_all_values)` calls in
source order. `RetryLimitExceededError` is not an `APIError`, so the except
clause does not catch it (`none`: the exception escapes the method). On a
caught `APIError` the method sets all three cached tables to the empty list.
The previous cached tables are received as arguments but no code path keeps
them. The final Bool records whether the success message was printed. -/
def load_and_cache_data
    (_old_tasks _old_projects _old_categories : List (List String))
    (ft fp fc : RetryResult (List (List String))) :
    Option (List (List String) × List (List String) × List (List String) × Bool) :=
  match ft with
  | .retryLimitExceeded _ => none
  | .apiError _ => some ([], [], [], false)
  | .ok t =>
    match fp with
    | .retryLimitExceeded _ => none
    | .apiError _ => some ([], [], [], false)
    | .ok p =>
      match fc with
      | .retryLimitExceeded _ => none
      | .apiError _ => some ([], [], [], false)
      | .ok c => some (t, p, c, true)

/-! ## mark_task_completed (run.py lines 848-889) -/

/-- First index satisfying a predicate: the model of Python
`next((x for x in xs if p(x)), None)` combined with position tracking. -/
def pyFindIdx {α : Type} (p : α → Bool) : List α → Option Nat
  | [] => none
  | x :: xs => if p x then some 0 else (pyFindIdx p xs).map (· + 1)

/-- Outcome of `mark_task_completed`. -/
inductive MarkOutcome where
  | noTasks
  | notFound
  | alreadyCompleted
  | completed
deriving DecidableEq

/-- Model of `TaskManager.mark_task_completed` on task id `taskId` at date
`today`: the not-found and already-completed paths change nothing and write
nothing; otherwise the found task is marked completed in memory and the
status cell (column 6) and complete-date cell (column 5) of sheet row
`int(task_id) + 1` are written remotely, in that order. `w1ok`/`w2ok` are the
outcomes of the two `update_cell` calls; a failed call raises an uncaught
APIError (`none`), and a non-numeric task id raises ValueError in `int`
(`none`). -/
def mark_task_completed (tasks : List Task) (taskId today : String)
    (w1ok w2ok : Bool) :
    Option (List Task × List (Nat × Nat × String) × MarkOutcome) :=
  if tasks.isEmpty then some (tasks, [], .noTasks)
  else
    match pyFindIdx (fun t => t.task_id == taskId) tasks with
    | none => some (tasks, [], .notFound)
    | some i =>
      match tasks.get? i with
      | none => none
      | some t =>
        if t.status == "Completed" then some (tasks, [], .alreadyCompleted)
        else
          if pyIsDigit t.task_id then
            if w1ok then
              if w2ok then
                some (tasks.set i (t.mark_as_completed today),
                  [(pyInt t.task_id + 1, 6, "Completed"), (pyInt t.task_id + 1, 5, today)],
                  .completed)
              else none
            else none
          else none

/-! ## The priority sort of view_tasks (run.py lines 536-539) -/

/-- The sort key `priority_order.get(task.priority, 5)` with the dict
`{"High": 1, "Medium": 2, "Low": 3, "": 4}`. -/
def priority_order (p : String) : Nat :=
  if p == "High" then 1 else if p == "Medium" then 2
  else if p == "Low" then 3 else if p == "" then 4 else 5

/-- Stable insertion by priority rank: a task is placed before the first
element whose rank is at least its own, so earlier tasks stay before
equal-rank later tasks, as in Python stable sorting. -/
def insertByPriority (t : Task) : List Task → List Task
  | [] => [t]
  | u :: us =>
    if priority_order t.priority ≤ priority_order u.priority then t :: u :: us
    else u :: insertByPriority t us

/-- Model of `sorted(self.tasks, key=lambda task: priority_order.get(task.priority, 5))`
in `view_tasks`: Python sorted is a stable sort by the key, and a stable
insertion sort computes the same list. -/
def view_tasks_sorted : List Task → List Task
  | [] => []
  | t :: ts => insertByPriority t (view_tasks_sorted ts)

/-! ## update_task (run.py lines 631-758) -/

/-- The numbered field menu of `update_task` (run.py lines 669-677). -/
def field_map (n : Nat) : Option String :=
  if n = 1 then some "task_name" else if n = 2 then some "deadline"
  else if n = 3 then some "priority" else if n = 4 then some "notes"
  else if n = 5 then some "status" else if n = 6 then some "category"
  else if n = 7 then some "project" else none

/-- The per-field validation block of `update_task` (run.py lines 701-730).
`none` means a validator raised; `some none` means validation passed;
`some (some msg)` is a reported validation error. `fetchedCategories` and
`fetchedProjects` are the tables the category and project validators fetch
remotely (those fetches assumed successful). The notes and status fields have
no validator. -/
def update_field_validation (field newValue : String) (now : PyDateTime)
    (fetchedCategories fetchedProjects : List (List String)) :
    Option (Option String) :=
  if field == "task_name" then some (validate_task_name newValue)
  else if field == "deadline" then some (validate_deadline now newValue)
  else if field == "priority" then some (validate_priority newValue)
  else if field == "category" then validate_category_id fetchedCategories newValue
  else if field == "project" then
    validate_project_id fetchedProjects fetchedCategories newValue
  else some none

/-- Outcome of `update_task`; the write payload is the 1-based
(row, column, value) passed to `update_cell`. -/
inductive UpdateOutcome where
  | noTasks
  | badStructure
  | notFound
  | invalidField
  | emptyValue
  | validationFailed (msg : String)
  | headerMissing
  | remoteFailed (write : Nat × Nat × String)
  | updated (write : Nat × Nat × String)
deriving DecidableEq

/-- Model of `TaskManager.update_task`. Steps, in source order: guard on an
empty cache; split headers from task rows; the display loop aborts on a row
with fewer than 8 cells; locate the row whose first cell is `taskId`; map the
field number through `field_map`; reject an empty new value; run the field
validator; find the field column in the header row (`headers.index`); assign
the new value into the cached row (IndexError if the column is beyond the
row); issue the single-cell remote write, whose success is `writeOk` - on
failure the error is printed and the method returns with the mutated cache;
on success the cache is reloaded as `[headers] + refetch[1:]`. -/
def update_task (cache : List (List String)) (taskId : String) (fieldNum : Nat)
    (newValue : String) (now : PyDateTime)
    (fetchedCategories fetchedProjects : List (List String))
    (writeOk : Bool) (refetch : List (List String)) :
    Option (List (List String) × UpdateOutcome) :=
  match cache with
  | [] => some (cache, .noTasks)
  | headers :: tasks_data =>
    if tasks_data.isEmpty then some (headers :: tasks_data, .noTasks)
    else if tasks_data.any (fun r => decide (r.length < 8)) then
      some (headers :: tasks_data, .badStructure)
    else
      match pyFindIdx (fun r => r.headD "" == taskId) tasks_data with
      | none => some (headers :: tasks_data, .notFound)
      | some i =>
        match tasks_data.get? i with
        | none => none
        | some row =>
          match field_map fieldNum with
          | none => some (headers :: tasks_data, .invalidField)
          | some field =>
            if newValue.toList.isEmpty then some (headers :: tasks_data, .emptyValue)
            else
              match update_field_validation field newValue now
                  fetchedCategories fetchedProjects with
              | none => none
              | some (some msg) => some (headers :: tasks_data, .validationFailed msg)
              | some none =>
                match pyFindIdx (fun h => h == field) headers with
                | none => some (headers :: tasks_data, .headerMissing)
                | some col =>
                  if col < row.length then
                    let newRow := row.set col newValue
                    let newData := tasks_data.set i newRow
                    let rowIdx :=
                      (pyFindIdx (fun r => r == newRow) (headers :: newData)).getD 0
                    let write := (rowIdx + 1, col + 1, newValue)
                    if writeOk then some (headers :: refetch.tail, .updated write)
                    else some (headers :: newData, .remoteFailed write)
                  else none

/-! ## Concrete sample data for closed statements -/

/-- A minimal task with a given priority, for concrete sorting statements. -/
def sampleTask (p : String) : Task :=
  { task_id := "0", name := "t", deadline := "", priority := p, status := "Pending",
    notes := "", category := none, project := none, complete_date := none,
    create_date := none }

/-- A 251-character notes value. -/
def longNotes : String := String.mk (List.replicate 251 'a')

/-- Header row of the cached task table used in concrete statements. -/
def cexHeaders : List String :=
  ["id", "name", "create_date", "deadline", "complete_date", "status", "priority",
   "category", "project", "notes"]

/-- A cached task row with priority Low. -/
def cexRow : List String :=
  ["7", "Task A", "2025-01-01", "2025-12-31", "", "Pending", "Low", "1", "2", "note"]

/-- The same row after the priority cell was overwritten with High. -/
def cexRowUpdated : List String :=
  ["7", "Task A", "2025-01-01", "2025-12-31", "", "Pending", "High", "1", "2", "note"]

/-- A cached task table whose single data row is stored as Completed with a
stored complete date, and whose category and project ids match nothing. -/
def wTaskTable : List (List String) :=
  [cexHeaders,
   ["1", "Done task", "2025-01-01", "2025-02-02", "2025-03-03", "Completed", "High",
    "9", "9", "n"]]

/-- A reference table with a header row and no data rows. -/
def wRefTable : List (List String) := [["id", "name"]]

/-- The task that `load_tasks` materializes from `wTaskTable`. -/
def wLoadedTask : Task :=
  { task_id := "1", name := "Done task", deadline := "2025-02-02", priority := "High",
    status := "Completed", notes := "n",
    category := some ⟨"9", "Unknown Category"⟩, project := some ⟨"9", "none"⟩,
    complete_date := none, create_date := none }

/-- A pending task used in the mark-completed statements. -/
def wPendingTask : Task :=
  { task_id := "1", name := "T", deadline := "2025-12-31", priority := "High",
    status := "Pending", notes := "", category := none, project := none,
    complete_date := none, create_date := none }

/-- The same task after the first successful mark-completed call. -/
def wCompletedTask : Task :=
  { wPendingTask with status := "Completed", complete_date := some "2025-05-05" }

/-! # Theorems -/

theorem digitVal_digitChar {k : Nat} (h : k < 10) : digitVal (digitChar k) = k := by
  interval_cases k <;> decide

theorem isDigit_digitChar {k : Nat} (h : k < 10) : (digitChar k).isDigit = true := by
  interval_cases k <;> decide

theorem charsVal_append_digit (l : List Char) (c : Char) :
    charsVal (l ++ [c]) = 10 * charsVal l + digitVal c := by
  simp [charsVal, List.foldl_append, Nat.mul_comm]

theorem natDigitsAux_spec :
    ∀ fuel n, n < fuel →
      charsVal (natDigitsAux fuel n) = n ∧
      natDigitsAux fuel n ≠ [] ∧
      ∀ c ∈ natDigitsAux fuel n, c.isDigit = true := by
  intro fuel
  induction fuel with
  | zero => intro n h; omega
  | succ fuel ih =>
    intro n h
    by_cases h10 : n < 10
    · refine ⟨?_, ?_, ?_⟩
      · simp [natDigitsAux, h10, charsVal, digitVal_digitChar h10]
      · simp [natDigitsAux, h10]
      · intro c hc
        simp [natDigitsAux, h10] at hc
        subst hc
        exact isDigit_digitChar h10
    · have hdiv : n / 10 < n := Nat.div_lt_self (by omega) (by omega)
      have hfuel : n / 10 < fuel := by omega
      obtain ⟨hval, hne, hdig⟩ := ih (n / 10) hfuel
      refine ⟨?_, ?_, ?_⟩
      · simp only [natDigitsAux, if_neg h10]
        rw [charsVal_append_digit, hval, digitVal_digitChar (Nat.mod_lt _ (by omega))]
        omega
      · simp [natDigitsAux, h10]
      · intro c hc
        simp only [natDigitsAux, if_neg h10, List.mem_append, List.mem_singleton] at hc
        rcases hc with hc | hc
        · exact hdig c hc
        · subst hc
          exact isDigit_digitChar (Nat.mod_lt _ (by omega))

theorem pyInt_natRepr (n : Nat) : pyInt (natRepr n) = n :=
  (natDigitsAux_spec (n + 1) n (Nat.lt_succ_self n)).1

theorem pyIsDigit_natRepr (n : Nat) : pyIsDigit (natRepr n) = true := by
  obtain ⟨-, hne, hdig⟩ := natDigitsAux_spec (n + 1) n (Nat.lt_succ_self n)
  simp only [pyIsDigit, natRepr, Bool.and_eq_true, Bool.not_eq_true']
  constructor
  · simpa [List.isEmpty_iff] using hne
  · simpa [List.all_eq_true] using hdig

/-- Any member of a list is bounded by the `foldr max 0` of the list. -/
theorem le_foldr_max {a : Nat} {l : List Nat} (h : a ∈ l) : a ≤ l.foldr max 0 := by
  induction l with
  | nil => cases h
  | cons x xs ih =>
    rcases List.mem_cons.mp h with rfl | hmem
    · exact Nat.le_max_left _ _
    · exact Nat.le_trans (ih hmem) (Nat.le_max_right _ _)

/-- Claim C7: for every in-memory task list, `generate_unique_task_id` returns
the string of `max(existing numeric ids) + 1`, returns `"1"` when no task has
an all-digit id, and the returned id never equals the id of any loaded task. -/
theorem generate_unique_task_id_spec (tasks : List Task) :
    pyIsDigit (generate_unique_task_id tasks) = true
    ∧ pyInt (generate_unique_task_id tasks) =
        ((tasks.filter fun t => pyIsDigit t.task_id).map fun t => pyInt t.task_id).foldr max 0 + 1
    ∧ ((tasks.filter fun t => pyIsDigit t.task_id) = [] →
        generate_unique_task_id tasks = "1")
    ∧ ∀ t ∈ tasks, generate_unique_task_id tasks ≠ t.task_id := by
  refine ⟨pyIsDigit_natRepr _, pyInt_natRepr _, ?_, ?_⟩
  · intro hempty
    simp only [generate_unique_task_id, hempty, List.map_nil, List.foldr_nil]
    decide
  · intro t ht hcontra
    set M := ((tasks.filter fun t => pyIsDigit t.task_id).map fun t => pyInt t.task_id).foldr max 0 with hM
    have hdig : pyIsDigit t.task_id = true := by
      rw [← hcontra]
      exact pyIsDigit_natRepr _
    have hmem : pyInt t.task_id ∈
        (tasks.filter fun t => pyIsDigit t.task_id).map fun t => pyInt t.task_id :=
      List.mem_map_of_mem _ (List.mem_filter.mpr ⟨ht, hdig⟩)
    have hle : pyInt t.task_id ≤ M := le_foldr_max hmem
    have hval : pyInt t.task_id = M + 1 := by
      rw [← hcontra]
      exact pyInt_natRepr _
    omega

/-- Claim C7 witness: concrete instantiation, including the no-collision part
at a task list whose ids are `"2"`, `"007"` and `"x"`. -/
theorem generate_unique_task_id_spec_witness :
    generate_unique_task_id
      [{ task_id := "2", name := "a", deadline := "", priority := "", status := "", notes := "",
         category := none, project := none, complete_date := none, create_date := none },
       { task_id := "007", name := "b", deadline := "", priority := "", status := "", notes := "",
         category := none, project := none, complete_date := none, create_date := none },
       { task_id := "x", name := "c", deadline := "", priority := "", status := "", notes := "",
         category := none, project := none, complete_date := none, create_date := none }]
      ≠ "2"
    ∧ generate_unique_task_id
      [{ task_id := "x", name := "c", deadline := "", priority := "", status := "", notes := "",
         category := none, project := none, complete_date := none, create_date := none }] = "1" := by
  constructor
  · exact (generate_unique_task_id_spec _).2.2.2 _ (List.mem_cons_self _ _)
  · exact (generate_unique_task_id_spec _).2.2.1 (by decide)

/-- The retry loop never invokes the wrapped call more often than its fuel. -/
theorem retryAux_calls_le {α : Type} (f : Nat → CallOutcome α) (delay : Nat) :
    ∀ fuel attempt, (retryAux f delay attempt fuel).calls ≤ fuel := by
  intro fuel
  induction fuel with
  | zero => intro attempt; simp [retryAux]
  | succ fuel ih =>
    intro attempt
    simp only [retryAux]
    cases f attempt with
    | ok v => simp
    | apiError msg =>
      by_cases h : contains429 msg = true
      · simpa [h] using Nat.succ_le_succ (ih (attempt + 1))
      · simp [h]

/-- If every remaining attempt fails transiently, the loop exhausts its fuel:
it raises `RetryLimitExceededError`, having invoked the call `fuel` times and
slept the exponential schedule. -/
theorem retryAux_exhaust {α : Type} (f : Nat → CallOutcome α) (delay : Nat) :
    ∀ fuel attempt,
      (∀ k, k < fuel → ∃ m, f (attempt + k) = .apiError m ∧ contains429 m = true) →
      retryAux f delay attempt fuel =
        { result := .retryLimitExceeded "Exceeded maximum retries for function",
          calls := fuel,
          sleeps := (List.range fuel).map fun i => delay * 2 ^ (attempt + i) } := by
  intro fuel
  induction fuel with
  | zero => intro attempt h; simp [retryAux]
  | succ fuel ih =>
    intro attempt h
    obtain ⟨m, hm, hm429⟩ := h 0 (Nat.succ_pos fuel)
    rw [Nat.add_zero] at hm
    have hrest := ih (attempt + 1) (fun k hk => by
      obtain ⟨m2, hm2, h2⟩ := h (k + 1) (Nat.succ_lt_succ hk)
      exact ⟨m2, by rw [show attempt + 1 + k = attempt + (k + 1) from by omega]; exact hm2, h2⟩)
    have hsl : delay * 2 ^ attempt :: ((List.range fuel).map fun i => delay * 2 ^ (attempt + 1 + i))
        = (List.range (fuel + 1)).map fun i => delay * 2 ^ (attempt + i) := by
      rw [List.range_succ_eq_map, List.map_cons, List.map_map]
      simp only [List.cons.injEq]
      constructor
      · show delay * 2 ^ attempt = delay * 2 ^ (attempt + 0)
        rw [Nat.add_zero]
      · apply List.map_congr_left
        intro i _
        show delay * 2 ^ (attempt + 1 + i) = delay * 2 ^ (attempt + (i + 1))
        rw [show attempt + 1 + i = attempt + (i + 1) from by omega]
    simp only [retryAux, hm, hm429, if_true, hrest, hsl]

/-- A non-transient APIError at attempt `j`, after `j` transient failures, is
re-raised immediately: `j + 1` invocations, sleeps only for the first `j`
attempts, and no retry after the fatal error. -/
theorem retryAux_nontransient {α : Type} (f : Nat → CallOutcome α) (delay : Nat) :
    ∀ j fuel attempt m, j < fuel →
      (∀ k, k < j → ∃ m2, f (attempt + k) = .apiError m2 ∧ contains429 m2 = true) →
      f (attempt + j) = .apiError m → contains429 m = false →
      retryAux f delay attempt fuel =
        { result := .apiError m, calls := j + 1,
          sleeps := (List.range j).map fun i => delay * 2 ^ (attempt + i) } := by
  intro j
  induction j with
  | zero =>
    intro fuel attempt m hlt _ hfj h429
    obtain ⟨fuel, rfl⟩ := Nat.exists_eq_succ_of_ne_zero (Nat.pos_iff_ne_zero.mp hlt)
    rw [Nat.add_zero] at hfj
    simp [retryAux, hfj, h429]
  | succ j ih =>
    intro fuel attempt m hlt htrans hfj h429
    obtain ⟨fuel, rfl⟩ := Nat.exists_eq_succ_of_ne_zero (by omega : fuel ≠ 0)
    obtain ⟨m0, hm0, hm0429⟩ := htrans 0 (Nat.succ_pos j)
    rw [Nat.add_zero] at hm0
    have hrest := ih fuel (attempt + 1) m (by omega)
      (fun k hk => by
        obtain ⟨m2, hm2, h2⟩ := htrans (k + 1) (Nat.succ_lt_succ hk)
        exact ⟨m2, by rw [show attempt + 1 + k = attempt + (k + 1) from by omega]; exact hm2, h2⟩)
      (by rw [show attempt + 1 + j = attempt + (j + 1) from by omega]; exact hfj) h429
    have hsl : delay * 2 ^ attempt :: ((List.range j).map fun i => delay * 2 ^ (attempt + 1 + i))
        = (List.range (j + 1)).map fun i => delay * 2 ^ (attempt + i) := by
      rw [List.range_succ_eq_map, List.map_cons, List.map_map]
      simp only [List.cons.injEq]
      constructor
      · show delay * 2 ^ attempt = delay * 2 ^ (attempt + 0)
        rw [Nat.add_zero]
      · apply List.map_congr_left
        intro i _
        show delay * 2 ^ (attempt + 1 + i) = delay * 2 ^ (attempt + (i + 1))
        rw [show attempt + 1 + i = attempt + (i + 1) from by omega]
    simp only [retryAux, hm0, hm0429, if_true, hrest, hsl]

/-- Claim C5: with the default ceiling of 5 attempts, `retry_with_backoff`
invokes the wrapped call at most 5 times; if every attempt is rate-limited it
sleeps `delay * 2 ^ attempt` before each retry and ends with
`RetryLimitExceededError`, an error distinct from the underlying APIError; a
non-transient APIError is propagated immediately with no further attempts. -/
theorem retry_with_backoff_spec {α : Type} (f : Nat → CallOutcome α) (delay : Nat) :
    (retry_with_backoff f 5 delay).calls ≤ 5
    ∧ ((∀ k, k < 5 → ∃ m, f k = .apiError m ∧ contains429 m = true) →
        retry_with_backoff f 5 delay =
          { result := .retryLimitExceeded "Exceeded maximum retries for function",
            calls := 5, sleeps := (List.range 5).map fun i => delay * 2 ^ i }
        ∧ ∀ m, (retry_with_backoff f 5 delay).result ≠ .apiError m)
    ∧ (∀ j m, j < 5 →
        (∀ k, k < j → ∃ m2, f k = .apiError m2 ∧ contains429 m2 = true) →
        f j = .apiError m → contains429 m = false →
        retry_with_backoff f 5 delay =
          { result := .apiError m, calls := j + 1,
            sleeps := (List.range j).map fun i => delay * 2 ^ i }) := by
  refine ⟨retryAux_calls_le f delay 5 0, ?_, ?_⟩
  · intro h
    have hx := retryAux_exhaust f delay 5 0 (fun k hk => by simpa using h k hk)
    constructor
    · simpa [retry_with_backoff] using hx
    · intro m
      rw [retry_with_backoff, hx]
      simp
  · intro j m hj htrans hfj h429
    have hx := retryAux_nontransient f delay j 5 0 m hj
      (fun k hk => by simpa using htrans k hk) (by simpa using hfj) h429
    simpa [retry_with_backoff] using hx

/-- Claim C5 witness: all five attempts rate-limited gives
`RetryLimitExceededError` after sleeps 1, 2, 4, 8, 16; a non-transient error
on the second attempt is re-raised after 2 calls and a single 1-second sleep. -/
theorem retry_with_backoff_spec_witness :
    retry_with_backoff (fun _ => CallOutcome.apiError "Quota 429 exceeded" : Nat → CallOutcome Nat) 5 1 =
      { result := .retryLimitExceeded "Exceeded maximum retries for function",
        calls := 5, sleeps := [1, 2, 4, 8, 16] }
    ∧ retry_with_backoff
        (fun k => if k = 0 then CallOutcome.apiError "Error 429" else CallOutcome.apiError "Bad request"
          : Nat → CallOutcome Nat) 5 1 =
      { result := .apiError "Bad request", calls := 2, sleeps := [1] } := by
  constructor
  · have h := ((retry_with_backoff_spec
      (fun _ => CallOutcome.apiError "Quota 429 exceeded" : Nat → CallOutcome Nat) 1).2.1
      (fun k _ => ⟨"Quota 429 exceeded", rfl, by decide⟩)).1
    rw [h]
    have hr : (List.range 5).map (fun i => 1 * 2 ^ i) = [1, 2, 4, 8, 16] := by decide
    rw [hr]
  · have htr : ∀ k, k < 1 → ∃ m2,
        (fun k => if k = 0 then CallOutcome.apiError "Error 429" else CallOutcome.apiError "Bad request"
          : Nat → CallOutcome Nat) k = CallOutcome.apiError m2 ∧ contains429 m2 = true := by
      intro k hk
      have hk0 : k = 0 := by omega
      subst hk0
      exact ⟨"Error 429", rfl, by decide⟩
    have h := (retry_with_backoff_spec
      (fun k => if k = 0 then CallOutcome.apiError "Error 429" else CallOutcome.apiError "Bad request"
        : Nat → CallOutcome Nat) 1).2.2 1 "Bad request" (by omega) htr (by decide) (by decide)
    rw [h]
    have hr : (List.range 1).map (fun i => 1 * 2 ^ i) = [1] := by decide
    rw [hr]

/-- Claim C2 (code defect evidence): a failed refresh does not retain the
previous cache. When the first fetch fails with a caught APIError,
`load_and_cache_data` sets all three cached tables to the empty list whatever
the previous cache held, so a non-empty last-known-good cache is wiped. -/
theorem load_and_cache_data_wipes_on_apierror
    (oldT oldP oldC : List (List String)) (m : String)
    (fp fc : RetryResult (List (List String))) :
    load_and_cache_data oldT oldP oldC (RetryResult.apiError m) fp fc
      = some ([], [], [], false)
    ∧ load_and_cache_data [["id"], ["1", "x"]] [["id", "n"]] [["id", "n"]]
        (RetryResult.apiError "500 Internal Server Error") fp fc
      ≠ some ([["id"], ["1", "x"]], [["id", "n"]], [["id", "n"]], false) := by
  refine ⟨rfl, ?_⟩
  intro hcontra
  simp [load_and_cache_data] at hcontra

/-- Inserting a task by priority rank yields a permutation of consing it. -/
theorem insertByPriority_perm (t : Task) (l : List Task) :
    (insertByPriority t l).Perm (t :: l) := by
  induction l with
  | nil => simp [insertByPriority]
  | cons u us ih =>
    simp only [insertByPriority]
    by_cases h : priority_order t.priority ≤ priority_order u.priority
    · rw [if_pos h]
    · rw [if_neg h]
      exact (ih.cons u).trans (List.Perm.swap t u us)

/-- The view sort is a permutation of its input. -/
theorem view_tasks_sorted_perm (l : List Task) : (view_tasks_sorted l).Perm l := by
  induction l with
  | nil => simp [view_tasks_sorted]
  | cons t ts ih => exact (insertByPriority_perm t _).trans (ih.cons t)

/-- Inserting into a rank-sorted list keeps it rank-sorted. -/
theorem insertByPriority_pairwise (t : Task) (l : List Task)
    (h : l.Pairwise fun a b => priority_order a.priority ≤ priority_order b.priority) :
    (insertByPriority t l).Pairwise
      fun a b => priority_order a.priority ≤ priority_order b.priority := by
  induction l with
  | nil => simp [insertByPriority]
  | cons u us ih =>
    rcases List.pairwise_cons.mp h with ⟨hu, hus⟩
    simp only [insertByPriority]
    by_cases hle : priority_order t.priority ≤ priority_order u.priority
    · rw [if_pos hle]
      refine List.pairwise_cons.mpr ⟨?_, h⟩
      intro b hb
      rcases List.mem_cons.mp hb with rfl | hbus
      · exact hle
      · exact Nat.le_trans hle (hu b hbus)
    · rw [if_neg hle]
      refine List.pairwise_cons.mpr ⟨?_, ih hus⟩
      intro b hb
      have hmem := (insertByPriority_perm t us).mem_iff.mp hb
      rcases List.mem_cons.mp hmem with rfl | hbus
      · omega
      · exact hu b hbus

/-- The view sort output is rank-sorted. -/
theorem view_tasks_sorted_pairwise (l : List Task) :
    (view_tasks_sorted l).Pairwise
      fun a b => priority_order a.priority ≤ priority_order b.priority := by
  induction l with
  | nil => simp [view_tasks_sorted]
  | cons t ts ih => exact insertByPriority_pairwise t _ ih

/-- Claim C9: the task-list view sorts strictly by the rank High, Medium, Low,
empty-last: the ranks of the four priority classes are strictly increasing in
that order, the sorted list is a permutation of the input, consecutive
elements are ordered by rank, and the concrete list with priorities
[Low, High, Medium, ""] comes out as [High, Medium, Low, ""]. -/
theorem view_tasks_priority_sort_spec (tasks : List Task) :
    (priority_order "High" < priority_order "Medium"
      ∧ priority_order "Medium" < priority_order "Low"
      ∧ priority_order "Low" < priority_order "")
    ∧ (view_tasks_sorted tasks).Perm tasks
    ∧ (view_tasks_sorted tasks).Pairwise
        (fun a b => priority_order a.priority ≤ priority_order b.priority)
    ∧ (view_tasks_sorted
        [sampleTask "Low", sampleTask "High", sampleTask "Medium", sampleTask ""]).map
        Task.priority = ["High", "Medium", "Low", ""] :=
  ⟨by decide, view_tasks_sorted_perm tasks, view_tasks_sorted_pairwise tasks, by decide⟩

/-- Every task produced by the materialization loop comes from some row. -/
theorem tasksFromRows_mem {cdict pdict : List (String × String)} :
    ∀ {rows : List (List String)} {ts : List Task},
      tasksFromRows cdict pdict rows = some ts →
      ∀ t ∈ ts, ∃ r ∈ rows, taskFromRow cdict pdict r = some t := by
  intro rows
  induction rows with
  | nil =>
    intro ts h t ht
    simp only [tasksFromRows, Option.some.injEq] at h
    subst h
    cases ht
  | cons r rs ih =>
    intro ts h t ht
    simp only [tasksFromRows] at h
    cases hr : taskFromRow cdict pdict r with
    | none => rw [hr] at h; cases h
    | some t0 =>
      cases hrs : tasksFromRows cdict pdict rs with
      | none => rw [hr, hrs] at h; cases h
      | some ts0 =>
        rw [hr, hrs] at h
        injection h with h
        subst h
        rcases List.mem_cons.mp ht with rfl | hmem
        · exact ⟨r, List.mem_cons_self r rs, hr⟩
        · obtain ⟨r2, hr2, he⟩ := ih hrs t hmem
          exact ⟨r2, List.mem_cons_of_mem r hr2, he⟩

/-- Whatever the row holds, a materialized task has both date fields None. -/
theorem taskFromRow_dates_none {cdict pdict : List (String × String)}
    {row : List String} {t : Task} (h : taskFromRow cdict pdict row = some t) :
    t.complete_date = none ∧ t.create_date = none := by
  rw [taskFromRow] at h
  split at h
  · injection h with h
    subst h
    exact ⟨rfl, rfl⟩
  · cases h

/-- Claim C10: every Task materialized by `load_tasks` has
`complete_date = None` and `create_date = None`, regardless of the values
stored in the persisted row, including rows stored with status Completed:
`load_tasks` never passes those columns and the Task constructor
unconditionally initializes `complete_date` to None. -/
theorem load_tasks_dates_none
    (ct cp cc : List (List String)) (ts : List Task)
    (h : load_tasks ct cp cc = some ts) :
    ∀ t ∈ ts, t.complete_date = none ∧ t.create_date = none := by
  intro t ht
  rw [load_tasks] at h
  cases hp : buildDict cp.tail with
  | none => rw [hp] at h; cases h
  | some pdict =>
    cases hc : buildDict cc.tail with
    | none => rw [hp, hc] at h; cases h
    | some cdict =>
      rw [hp, hc] at h
      obtain ⟨r, -, he⟩ := tasksFromRows_mem h t ht
      exact taskFromRow_dates_none he

/-- Claim C10 witness: the task loaded from a row stored as Completed with a
stored complete date and create date still has both fields None. -/
theorem load_tasks_dates_none_witness :
    wLoadedTask.complete_date = none ∧ wLoadedTask.create_date = none :=
  load_tasks_dates_none wTaskTable wRefTable wRefTable [wLoadedTask] rfl
    wLoadedTask (List.mem_cons_self _ _)

/-- Indexing within bounds always yields a value. -/
theorem get?_of_lt {α : Type} : ∀ (l : List α) (i : Nat), i < l.length →
    ∃ x, l.get? i = some x := by
  intro l
  induction l with
  | nil => intro i h; simp at h
  | cons x xs ih =>
    intro i h
    cases i with
    | zero => exact ⟨x, rfl⟩
    | succ j => exact ih j (Nat.lt_of_succ_lt_succ h)

/-- A row of at least 10 cells always materializes, with the category and
project references taken from cells 7 and 8 and resolved through the dicts. -/
theorem taskFromRow_of_len (cdict pdict : List (String × String)) {row : List String}
    (h : 10 ≤ row.length) :
    ∃ cid pid, row.get? 7 = some cid ∧ row.get? 8 = some pid ∧
      ∃ t, taskFromRow cdict pdict row = some t
        ∧ t.category = some ⟨cid, dictGet cdict cid "Unknown Category"⟩
        ∧ t.project = some ⟨pid, dictGet pdict pid "none"⟩ := by
  obtain ⟨a0, h0⟩ := get?_of_lt row 0 (by omega)
  obtain ⟨a1, h1⟩ := get?_of_lt row 1 (by omega)
  obtain ⟨a3, h3⟩ := get?_of_lt row 3 (by omega)
  obtain ⟨a6, h6⟩ := get?_of_lt row 6 (by omega)
  obtain ⟨a5, h5⟩ := get?_of_lt row 5 (by omega)
  obtain ⟨a9, h9⟩ := get?_of_lt row 9 (by omega)
  obtain ⟨a7, h7⟩ := get?_of_lt row 7 (by omega)
  obtain ⟨a8, h8⟩ := get?_of_lt row 8 (by omega)
  refine ⟨a7, a8, h7, h8, ?_⟩
  rw [taskFromRow, h0, h1, h3, h6, h5, h9, h7, h8]
  exact ⟨_, rfl, rfl, rfl⟩

/-- The materialization loop succeeds on rows of at least 10 cells and keeps
the row count. -/
theorem tasksFromRows_of_len (cdict pdict : List (String × String)) :
    ∀ {rows : List (List String)}, (∀ r ∈ rows, 10 ≤ r.length) →
      ∃ ts, tasksFromRows cdict pdict rows = some ts ∧ ts.length = rows.length := by
  intro rows
  induction rows with
  | nil => intro _; exact ⟨[], rfl, rfl⟩
  | cons r rs ih =>
    intro h
    obtain ⟨ts, hts, hlen⟩ := ih fun x hx => h x (List.mem_cons_of_mem r hx)
    obtain ⟨cid, pid, -, -, t, ht, -, -⟩ :=
      taskFromRow_of_len cdict pdict (h r (List.mem_cons_self r rs))
    refine ⟨t :: ts, ?_, by simp [hlen]⟩
    simp only [tasksFromRows, ht, hts]

/-- The dict comprehension succeeds on rows of at least 2 cells, and every
key in the dict is the first cell of some row. -/
theorem buildDict_of_len :
    ∀ (rows : List (List String)), (∀ r ∈ rows, 2 ≤ r.length) →
      ∃ d, buildDict rows = some d
        ∧ ∀ kv ∈ d, ∃ r ∈ rows, r.get? 0 = some kv.1 := by
  intro rows
  induction rows with
  | nil => exact fun _ => ⟨[], rfl, fun kv hkv => absurd hkv (List.not_mem_nil kv)⟩
  | cons r rs ih =>
    intro h
    obtain ⟨d, hd, hprov⟩ := ih fun x hx => h x (List.mem_cons_of_mem r hx)
    obtain ⟨k, hk⟩ := get?_of_lt r 0
      (by have := h r (List.mem_cons_self r rs); omega)
    obtain ⟨v, hv⟩ := get?_of_lt r 1
      (by have := h r (List.mem_cons_self r rs); omega)
    refine ⟨(k, v) :: d, ?_, ?_⟩
    · simp only [buildDict, hk, hv, hd, Option.map_some']
    · intro kv hkv
      rcases List.mem_cons.mp hkv with rfl | hmem
      · exact ⟨r, List.mem_cons_self r rs, hk⟩
      · obtain ⟨r2, hr2, he⟩ := hprov kv hmem
        exact ⟨r2, List.mem_cons_of_mem r hr2, he⟩

/-- A key bound nowhere in the dict resolves to the default. -/
theorem dictGet_eq_default {d : List (String × String)} {k dflt : String}
    (h : ∀ kv ∈ d, kv.1 ≠ k) : dictGet d k dflt = dflt := by
  rw [dictGet]
  have hnone : (d.reverse.find? fun p => p.1 == k) = none := by
    rw [List.find?_eq_none]
    intro p hp
    simpa using h p (List.mem_reverse.mp hp)
  rw [hnone]

/-- Claim C8: for every cached task row of full width, `load_tasks` resolves
the category id and project id totally into reference pairs: an id with no
match in the cached reference tables resolves to the sentinel display name
("Unknown Category" for categories, "none" for projects), and the load never
fails. -/
theorem load_tasks_total_resolution
    (ct cp cc : List (List String))
    (htl : ∀ r ∈ ct.tail, 10 ≤ r.length)
    (hpl : ∀ r ∈ cp.tail, 2 ≤ r.length)
    (hcl : ∀ r ∈ cc.tail, 2 ≤ r.length) :
    ∃ ts, load_tasks ct cp cc = some ts
      ∧ ts.length = ct.tail.length
      ∧ ∀ t ∈ ts, ∃ cid pid cname pname,
          t.category = some ⟨cid, cname⟩ ∧ t.project = some ⟨pid, pname⟩
          ∧ ((∀ r ∈ cc.tail, r.get? 0 ≠ some cid) → cname = "Unknown Category")
          ∧ ((∀ r ∈ cp.tail, r.get? 0 ≠ some pid) → pname = "none") := by
  obtain ⟨pdict, hpd, hpprov⟩ := buildDict_of_len cp.tail hpl
  obtain ⟨cdict, hcd, hcprov⟩ := buildDict_of_len cc.tail hcl
  obtain ⟨ts, hts, hlen⟩ := tasksFromRows_of_len cdict pdict htl
  refine ⟨ts, ?_, hlen, ?_⟩
  · simp only [load_tasks, hpd, hcd]
    exact hts
  · intro t ht
    obtain ⟨r, hr, he⟩ := tasksFromRows_mem hts t ht
    obtain ⟨cid, pid, -, -, t2, ht2, hcat, hproj⟩ := taskFromRow_of_len cdict pdict (htl r hr)
    rw [he] at ht2
    injection ht2 with ht2
    subst ht2
    refine ⟨cid, pid, _, _, hcat, hproj, ?_, ?_⟩
    · intro hnone
      apply dictGet_eq_default
      intro kv hkv hkeq
      obtain ⟨r2, hr2, hk⟩ := hcprov kv hkv
      exact hnone r2 hr2 (hkeq ▸ hk)
    · intro hnone
      apply dictGet_eq_default
      intro kv hkv hkeq
      obtain ⟨r2, hr2, hk⟩ := hpprov kv hkv
      exact hnone r2 hr2 (hkeq ▸ hk)

/-- Claim C8 witness: the concrete table whose row references the unmatched
category and project id "9" loads successfully. -/
theorem load_tasks_total_resolution_witness :
    (load_tasks wTaskTable wRefTable wRefTable).isSome = true := by
  obtain ⟨ts, hts, -, -⟩ := load_tasks_total_resolution wTaskTable wRefTable wRefTable
    (by decide) (by decide) (by decide)
  rw [hts]
  rfl

/-- Claim C3 counterexample: at the validation instant 2025-06-15 12:00:00,
the well-formed deadline "2025-06-15" names the same calendar date as the
instant - not a strictly earlier one - yet `validate_deadline` reports the
in-the-past error, so a deadline equal to the current date fails. -/
theorem validate_deadline_today_rejected_cex :
    parseYmd "2025-06-15" = some (2025, 6, 15)
    ∧ ¬ dateKey ⟨2025, 6, 15, 0, 0, 0⟩ < dateKey ⟨2025, 6, 15, 12, 0, 0⟩
    ∧ validate_deadline ⟨2025, 6, 15, 12, 0, 0⟩ "2025-06-15"
        = some "Deadline cannot be in the past." := by
  refine ⟨by decide, by decide, by decide⟩

/-- Claim C3 amended: for a well-formed deadline, the in-the-past error is
reported iff the deadline midnight instant is strictly before the validation
instant: the deadline calendar date is strictly earlier than the instant
date, or it is the same calendar date and the time of day of the instant is
past midnight. A deadline equal to the current date therefore fails whenever
the current time is not exactly midnight. -/
theorem validate_deadline_past_iff (now : PyDateTime) (s : String)
    (y m d : Nat) (hp : parseYmd s = some (y, m, d))
    (hnow : timeKey now < 1000000) :
    validate_deadline now s = some "Deadline cannot be in the past."
      ↔ (dateKey ⟨y, m, d, 0, 0, 0⟩ < dateKey now
         ∨ (dateKey ⟨y, m, d, 0, 0, 0⟩ = dateKey now ∧ 0 < timeKey now)) := by
  have ht0 : timeKey ⟨y, m, d, 0, 0, 0⟩ = 0 := rfl
  have hdk : dateKey ⟨y, m, d, 0, 0, 0⟩ = dateKey ⟨y, m, d, 12, 0, 0⟩ := rfl
  have harith : dtKey ⟨y, m, d, 0, 0, 0⟩ < dtKey now ↔
      (dateKey ⟨y, m, d, 0, 0, 0⟩ < dateKey now
       ∨ (dateKey ⟨y, m, d, 0, 0, 0⟩ = dateKey now ∧ 0 < timeKey now)) := by
    rw [dtKey, dtKey, ht0]
    omega
  have hval : validate_deadline now s =
      if dtKey ⟨y, m, d, 0, 0, 0⟩ < dtKey now then some "Deadline cannot be in the past."
      else none := by
    simp only [validate_deadline, hp]
  rw [hval]
  by_cases hlt : dtKey ⟨y, m, d, 0, 0, 0⟩ < dtKey now
  · rw [if_pos hlt]
    exact iff_of_true rfl (harith.mp hlt)
  · rw [if_neg hlt]
    exact iff_of_false (fun hc => Option.noConfusion hc) (fun hr => hlt (harith.mpr hr))

/-- Claim C3 amended witness: the deadline one day before the instant date is
rejected as in the past. -/
theorem validate_deadline_past_iff_witness :
    validate_deadline ⟨2025, 6, 15, 12, 0, 0⟩ "2025-06-14"
      = some "Deadline cannot be in the past." :=
  (validate_deadline_past_iff ⟨2025, 6, 15, 12, 0, 0⟩ "2025-06-14" 2025 6 14
    (by decide) (by decide)).mpr (Or.inl (by decide))

set_option maxRecDepth 8192 in
/-- Claim C4 counterexample: adding a task whose notes are 251 characters and
reconstructing it from the persisted row yields the notes verbatim at length
251 - not truncated to at most 250 characters as the claim requires. -/
theorem add_task_notes_not_truncated_cex :
    (Option.bind
        (add_task [] [["id", "name"]] [["id", "name"]] "T" "2025-12-31" "High" "1" "1"
          longNotes none "2025-01-01")
        fun res => taskFromRow [] [] res.2).map
        (fun t => (t.notes == longNotes, decide (t.notes.toList.length ≤ 250)))
      = some (true, false) := by decide

/-- Claim C4 amended: add followed by reconstruction from the persisted row
(fixed column order id, name, create_date, deadline, complete_date, status,
priority, category, project, notes) reproduces the name, deadline, priority,
status Pending, category id, project id, and the notes verbatim: the code
performs no 250-character truncation of notes at any length. -/
theorem add_task_load_roundtrip
    (tasks : List Task) (cp cc : List (List String))
    (name deadline priority cid pid notes : String)
    (create_date : Option String) (today : String)
    (cdict pdict : List (String × String))
    (hcc : buildDict cc.tail = some cdict) (hcp : buildDict cp.tail = some pdict)
    (tasks2 : List Task) (row : List String)
    (h : add_task tasks cp cc name deadline priority cid pid notes create_date today
          = some (tasks2, row)) :
    ∃ t, taskFromRow cdict pdict row = some t
      ∧ t.name = name ∧ t.deadline = deadline ∧ t.priority = priority
      ∧ t.status = "Pending"
      ∧ t.category = some ⟨cid, dictGet cdict cid "Unknown Category"⟩
      ∧ t.project = some ⟨pid, dictGet pdict pid "none"⟩
      ∧ t.notes = notes := by
  simp only [add_task, get_category_name, get_project_name, hcc, hcp, Option.map_some',
    Option.some.injEq, Prod.mk.injEq] at h
  obtain ⟨-, hrow⟩ := h
  subst hrow
  exact ⟨_, rfl, rfl, rfl, rfl, rfl, rfl, rfl, rfl⟩

/-- Claim C4 amended witness: a concrete added row reconstructs with the same
notes and the Pending status. -/
theorem add_task_load_roundtrip_witness :
    (taskFromRow [] [] ["1", "T", "2025-01-01", "2025-12-31", "", "Pending", "High",
        "1", "1", "n"]).map Task.notes = some "n"
    ∧ (taskFromRow [] [] ["1", "T", "2025-01-01", "2025-12-31", "", "Pending", "High",
        "1", "1", "n"]).map Task.status = some "Pending" := by
  obtain ⟨t, he, -, -, -, hstatus, -, -, hnotes⟩ :=
    add_task_load_roundtrip [] [["id", "name"]] [["id", "name"]] "T" "2025-12-31" "High"
      "1" "1" "n" none "2025-01-01" [] [] rfl rfl
      [{ task_id := "1", name := "T", deadline := "2025-12-31", priority := "High",
         status := "Pending", notes := "n",
         category := some ⟨"1", "Unknown Category"⟩, project := some ⟨"1", "none"⟩,
         complete_date := none, create_date := some "2025-01-01" }]
      ["1", "T", "2025-01-01", "2025-12-31", "", "Pending", "High", "1", "1", "n"] rfl
  constructor
  · rw [he, Option.map_some', hnotes]
  · rw [he, Option.map_some', hstatus]

/-- Setting a list element within bounds is visible at that index. -/
theorem get?_set_self {α : Type} (b : α) :
    ∀ (l : List α) (i : Nat), i < l.length → (l.set i b).get? i = some b := by
  intro l
  induction l with
  | nil => intro i h; simp at h
  | cons x xs ih =>
    intro i h
    cases i with
    | zero => rfl
    | succ j => exact ih j (Nat.lt_of_succ_lt_succ h)

/-- A found index is within bounds. -/
theorem pyFindIdx_lt_length {α : Type} (p : α → Bool) :
    ∀ {l : List α} {i : Nat}, pyFindIdx p l = some i → i < l.length := by
  intro l
  induction l with
  | nil => intro i h; cases h
  | cons x xs ih =>
    intro i h
    simp only [pyFindIdx] at h
    by_cases hp : p x
    · rw [if_pos hp] at h
      injection h with h
      subst h
      simp
    · rw [if_neg hp] at h
      cases hj : pyFindIdx p xs with
      | none => rw [hj] at h; cases h
      | some j =>
        rw [hj] at h
        injection h with h
        subst h
        have := ih hj
        simp only [List.length_cons]
        omega

/-- The element at a found index satisfies the predicate. -/
theorem pyFindIdx_get {α : Type} (p : α → Bool) :
    ∀ {l : List α} {i : Nat} {a : α},
      pyFindIdx p l = some i → l.get? i = some a → p a = true := by
  intro l
  induction l with
  | nil => intro i a h _; cases h
  | cons x xs ih =>
    intro i a h hg
    simp only [pyFindIdx] at h
    by_cases hp : p x
    · rw [if_pos hp] at h
      injection h with h
      subst h
      simp only [List.get?_cons_zero, Option.some.injEq] at hg
      subst hg
      exact hp
    · rw [if_neg hp] at h
      cases hj : pyFindIdx p xs with
      | none => rw [hj] at h; cases h
      | some j =>
        rw [hj] at h
        injection h with h
        subst h
        simp only [List.get?_cons_succ] at hg
        exact ih hj hg

/-- Replacing the found element with one still satisfying the predicate keeps
the found index. -/
theorem pyFindIdx_set {α : Type} (p : α → Bool) (b : α) (hb : p b = true) :
    ∀ (l : List α) (i : Nat), pyFindIdx p l = some i →
      pyFindIdx p (l.set i b) = some i := by
  intro l
  induction l with
  | nil => intro i h; cases h
  | cons x xs ih =>
    intro i h
    simp only [pyFindIdx] at h
    by_cases hp : p x
    · rw [if_pos hp] at h
      injection h with h
      subst h
      simp [pyFindIdx, hb]
    · rw [if_neg hp] at h
      cases hj : pyFindIdx p xs with
      | none => rw [hj] at h; cases h
      | some j =>
        rw [hj] at h
        injection h with h
        subst h
        have hx := ih j hj
        simp [pyFindIdx, hp, hx]

/-- Claim C6: calling `mark_task_completed` a second time on the same task id
is a no-op: whenever a first call succeeds, a second call on the resulting
state leaves every task unchanged (in particular status and complete date),
issues no remote cell writes, and reports the already-completed message. -/
theorem mark_task_completed_idempotent
    (tasks : List Task) (taskId today today2 : String) (w1 w2 : Bool)
    (tasks1 : List Task) (writes1 : List (Nat × Nat × String))
    (h : mark_task_completed tasks taskId today true true
          = some (tasks1, writes1, MarkOutcome.completed)) :
    mark_task_completed tasks1 taskId today2 w1 w2
      = some (tasks1, [], MarkOutcome.alreadyCompleted) := by
  rw [mark_task_completed] at h
  split at h
  · simp at h
  · rename_i he
    split at h
    · simp at h
    · rename_i i hf
      split at h
      · cases h
      · rename_i t hg
        split at h
        · simp at h
        · rename_i hs
          split at h
          · rw [if_pos rfl, if_pos rfl] at h
            simp only [Option.some.injEq, Prod.mk.injEq] at h
            obtain ⟨h1, -, -⟩ := h
            subst h1
            have hne : tasks ≠ [] := fun hnil => by subst hnil; exact he rfl
            have hlt : i < tasks.length := pyFindIdx_lt_length _ hf
            have hpt : (t.task_id == taskId) = true :=
              pyFindIdx_get (fun u => u.task_id == taskId) hf hg
            have hf2 : pyFindIdx (fun u => u.task_id == taskId)
                (tasks.set i (t.mark_as_completed today)) = some i :=
              pyFindIdx_set _ (t.mark_as_completed today) hpt tasks i hf
            have hg2 : (tasks.set i (t.mark_as_completed today)).get? i
                = some (t.mark_as_completed today) :=
              get?_set_self _ tasks i hlt
            have hE2 : (tasks.set i (t.mark_as_completed today)).isEmpty = false := by
              cases tasks with
              | nil => exact absurd rfl hne
              | cons x xs => cases i <;> rfl
            have hstat : ((t.mark_as_completed today).status == "Completed") = true := rfl
            simp only [mark_task_completed, hE2, hf2, hg2, hstat, eq_self_iff_true,
              if_true, Bool.false_eq_true, if_false]
          · cases h

/-- Claim C6 witness: after a first successful completion of the concrete
pending task, a second call changes nothing, writes nothing, and reports the
already-completed message. -/
theorem mark_task_completed_idempotent_witness :
    mark_task_completed [wCompletedTask] "1" "2025-06-06" false false
      = some ([wCompletedTask], [], MarkOutcome.alreadyCompleted) :=
  mark_task_completed_idempotent [wPendingTask] "1" "2025-05-05" "2025-06-06" false false
    [wCompletedTask] [(2, 6, "Completed"), (2, 5, "2025-05-05")] rfl

/-- Claim C1 counterexample: with a one-task cache, updating the priority of
task 7 to High with a failing remote cell write surfaces the remote failure
but returns a cache whose row already holds the new value - the cache is not
left unchanged and not rolled back. -/
theorem update_task_remote_failure_mutates_cache_cex :
    update_task [cexHeaders, cexRow] "7" 3 "High" ⟨2025, 1, 1, 0, 0, 0⟩ [] [] false []
      = some ([cexHeaders, cexRowUpdated], UpdateOutcome.remoteFailed (2, 7, "High"))
    ∧ [cexHeaders, cexRowUpdated] ≠ [cexHeaders, cexRow] :=
  ⟨by decide, by decide⟩

/-- Claim C1 amended: when the remote single-cell write fails, `update_task`
surfaces the failure (the outcome is the remote-failure report, never the
updated report) but the in-memory cache is not left unchanged: it keeps the
new value that was assigned into the cached row before the remote write was
attempted, with no rollback, so the cache claims a write that did not happen
remotely whenever the new value differs from the stored one. -/
theorem update_task_remote_failure_surfaced_not_rolled_back
    (headers : List String) (tasks_data : List (List String))
    (taskId : String) (fieldNum : Nat) (newValue : String) (now : PyDateTime)
    (fetchedCategories fetchedProjects refetch : List (List String))
    (field : String) (i col : Nat) (row : List String)
    (hne : tasks_data ≠ [])
    (hlen : ∀ r ∈ tasks_data, 8 ≤ r.length)
    (hfind : pyFindIdx (fun r => r.headD "" == taskId) tasks_data = some i)
    (hrow : tasks_data.get? i = some row)
    (hfield : field_map fieldNum = some field)
    (hval : newValue.toList.isEmpty = false)
    (hvalid : update_field_validation field newValue now fetchedCategories fetchedProjects
        = some none)
    (hcol : pyFindIdx (fun x => x == field) headers = some col)
    (hcollt : col < row.length) :
    (∃ w, update_task (headers :: tasks_data) taskId fieldNum newValue now
          fetchedCategories fetchedProjects false refetch
        = some (headers :: tasks_data.set i (row.set col newValue),
                UpdateOutcome.remoteFailed w))
    ∧ (row.get? col ≠ some newValue →
        headers :: tasks_data.set i (row.set col newValue) ≠ headers :: tasks_data) := by
  constructor
  · have hE : tasks_data.isEmpty = false := by
      cases tasks_data with
      | nil => exact absurd rfl hne
      | cons a l => rfl
    have hany : (tasks_data.any fun r => decide (r.length < 8)) = false := by
      rw [List.any_eq_false]
      intro r hr
      simpa using hlen r hr
    refine ⟨((pyFindIdx (fun r => r == row.set col newValue)
        (headers :: tasks_data.set i (row.set col newValue))).getD 0 + 1,
      col + 1, newValue), ?_⟩
    simp only [update_task, hE, hany, hfind, hrow, hfield, hval, hvalid, hcol,
      if_pos hcollt, Bool.false_eq_true, if_false]
  · intro hget hcontra
    have h1 : tasks_data.set i (row.set col newValue) = tasks_data := by
      injection hcontra
    have hlt : i < tasks_data.length := pyFindIdx_lt_length _ hfind
    have hg2 : (tasks_data.set i (row.set col newValue)).get? i
        = some (row.set col newValue) :=
      get?_set_self _ tasks_data i hlt
    rw [h1, hrow] at hg2
    injection hg2 with hg2
    have hgc : (row.set col newValue).get? col = some newValue :=
      get?_set_self _ row col hcollt
    rw [← hg2] at hgc
    exact hget hgc

/-- Claim C1 amended witness: the concrete failing update leaves the cache
holding the new priority value, hence different from the original cache. -/
theorem update_task_remote_failure_surfaced_not_rolled_back_witness :
    [cexHeaders, cexRow.set 6 "High"] ≠ [cexHeaders, cexRow] := by
  have h := update_task_remote_failure_surfaced_not_rolled_back
    cexHeaders [cexRow] "7" 3 "High" ⟨2025, 1, 1, 0, 0, 0⟩ [] [] []
    "priority" 0 6 cexRow
    (by decide) (by decide) (by decide) rfl rfl (by decide) rfl (by decide) (by decide)
  exact h.2 (by decide)

end TaskMan
